import Mathlib

/-!
Verification of the release-management core (`llmzy/release-management`).

This file shallowly embeds the pure logic of the repository's source files:

* `src/targetPackageManager/npm.ts` / `yarn.ts`  — command builders
* `src/targetPackageManager/detection.ts`        — package-manager detection
* `src/repository.ts`                            — release orchestration
  (version resolution, publish, availability polling)
* `src/package.ts`                               — manifest / registry metadata
  helpers (alias parsing, dependency lookup)
* `src/commands/npm/package/verify.ts`           — signature verification flow

TypeScript optional parameters are embedded as `Option`; JavaScript string
truthiness (`if (x)` on a possibly-undefined string) is embedded by
`optTruthy`/`boolTruthy`/`tokenTruthy`; code that throws (`SfError`) is
embedded with `Except String`.  Stateful I/O (shell, HTTP, filesystem) is
passed in explicitly as data so every function is pure and executable.
-/

/-- JS truthiness of an optional string parameter: defined and nonempty. -/
def optTruthy : Option String → Bool
  | none => false
  | some s => s != ""

/-- JS truthiness of an optional boolean parameter. -/
def boolTruthy : Option Bool → Bool
  | none => false
  | some b => b

/-- All suffixes of `s` that immediately follow an occurrence of `pat`,
in left-to-right order of the occurrences.  Used to embed JavaScript
`String.prototype.includes` and leftmost / rightmost substring matching. -/
def tailsAfter (pat : List Char) : List Char → List (List Char)
  | [] => if pat = [] then [[]] else []
  | c :: rest =>
      (if pat.isPrefixOf (c :: rest) then [(c :: rest).drop pat.length] else []) ++
      tailsAfter pat rest

/-- Embeds JavaScript `s.includes(pat)` (for nonempty `pat`). -/
def includesStr (s pat : String) : Bool :=
  !(tailsAfter pat.data s.data).isEmpty

/-- Embeds JavaScript `s.startsWith(pre)`. -/
def startsWithStr (s pre : String) : Bool :=
  pre.data.isPrefixOf s.data

/-!
## Command builders (`src/targetPackageManager/npm.ts`, `yarn.ts`)

`NpmTargetManager.getPublishCommand` / `YarnTargetManager.getPublishCommand`:
start from the base publish command and append each supplied option in
source order (registry, access, tag, dry-run flag, tarball).
-/

/-- Embeds `NpmTargetManager.getPublishCommand` (npm.ts lines 65-79). -/
def npmGetPublishCommand (projectRoot : String) (registryParam access tag : Option String)
    (dryrun : Option Bool) (tarball : Option String) : String :=
  let cmd := "npm publish --prefix " ++ projectRoot
  let cmd := if optTruthy registryParam then cmd ++ " " ++ registryParam.getD "" else cmd
  let cmd := if optTruthy access then cmd ++ " --access " ++ access.getD "" else cmd
  let cmd := if optTruthy tag then cmd ++ " --tag " ++ tag.getD "" else cmd
  let cmd := if boolTruthy dryrun then cmd ++ " --dry-run" else cmd
  let cmd := if optTruthy tarball then cmd ++ " " ++ tarball.getD "" else cmd
  cmd

/-- Embeds `YarnTargetManager.getPublishCommand` (yarn.ts lines 65-79). -/
def yarnGetPublishCommand (projectRoot : String) (registryParam access tag : Option String)
    (dryrun : Option Bool) (tarball : Option String) : String :=
  let cmd := "yarn publish --cwd " ++ projectRoot
  let cmd := if optTruthy registryParam then cmd ++ " " ++ registryParam.getD "" else cmd
  let cmd := if optTruthy access then cmd ++ " --access " ++ access.getD "" else cmd
  let cmd := if optTruthy tag then cmd ++ " --tag " ++ tag.getD "" else cmd
  let cmd := if boolTruthy dryrun then cmd ++ " --dry-run" else cmd
  let cmd := if optTruthy tarball then cmd ++ " " ++ tarball.getD "" else cmd
  cmd

/-!
Specification-side decomposition of the publish command (follows the spec's
words: "places the present options in the fixed order registry, access, tag,
dry-run flag, tarball path"): each option contributes an independent piece,
and the command is the base followed by the pieces in that fixed order.
-/

/-- Spec-side piece: the registry argument, when present. -/
def registryPiece (r : Option String) : String :=
  if optTruthy r then " " ++ r.getD "" else ""

/-- Spec-side piece: the access-level option, when present. -/
def accessPiece (a : Option String) : String :=
  if optTruthy a then " --access " ++ a.getD "" else ""

/-- Spec-side piece: the distribution-tag option, when present. -/
def tagPiece (t : Option String) : String :=
  if optTruthy t then " --tag " ++ t.getD "" else ""

/-- Spec-side piece: the dry-run flag, when requested. -/
def dryRunPiece (d : Option Bool) : String :=
  if boolTruthy d then " --dry-run" else ""

/-- Spec-side piece: the tarball path, when present. -/
def tarballPiece (tb : Option String) : String :=
  if optTruthy tb then " " ++ tb.getD "" else ""

/-- Spec-side publish command: base command followed by the option pieces in
the fixed order registry, access, tag, dry-run, tarball. -/
def publishCommandSpec (base : String) (r a t : Option String) (d : Option Bool)
    (tb : Option String) : String :=
  base ++ registryPiece r ++ accessPiece a ++ tagPiece t ++ dryRunPiece d ++ tarballPiece tb

theorem string_append_assoc (a b c : String) : a ++ b ++ c = a ++ (b ++ c) := by
  apply String.ext
  simp [String.data_append, List.append_assoc]

theorem string_append_empty (a : String) : a ++ "" = a := by
  apply String.ext
  simp [String.data_append]

theorem dryrun_space_merge (x : String) :
    (" --dry-run" : String) ++ (" " ++ x) = " --dry-run " ++ x := by
  have h : (" --dry-run " : String) = " --dry-run" ++ " " := rfl
  rw [h, string_append_assoc]

theorem append_if_push (c : Bool) (cmd x : String) :
    (if c then cmd ++ x else cmd) = cmd ++ (if c then x else "") := by
  cases c with
  | false => simp [string_append_empty]
  | true => simp

theorem npmGetPublishCommand_eq_spec (root : String) (r a t : Option String)
    (d : Option Bool) (tb : Option String) :
    npmGetPublishCommand root r a t d tb =
      publishCommandSpec ("npm publish --prefix " ++ root) r a t d tb := by
  simp only [npmGetPublishCommand, publishCommandSpec, registryPiece, accessPiece,
    tagPiece, dryRunPiece, tarballPiece]
  cases optTruthy r <;> cases optTruthy a <;> cases optTruthy t <;>
    cases boolTruthy d <;> cases optTruthy tb <;>
    simp [string_append_assoc, string_append_empty, dryrun_space_merge]

theorem yarnGetPublishCommand_eq_spec (root : String) (r a t : Option String)
    (d : Option Bool) (tb : Option String) :
    yarnGetPublishCommand root r a t d tb =
      publishCommandSpec ("yarn publish --cwd " ++ root) r a t d tb := by
  simp only [yarnGetPublishCommand, publishCommandSpec, registryPiece, accessPiece,
    tagPiece, dryRunPiece, tarballPiece]
  cases optTruthy r <;> cases optTruthy a <;> cases optTruthy t <;>
    cases boolTruthy d <;> cases optTruthy tb <;>
    simp [string_append_assoc, string_append_empty, dryrun_space_merge]

/-- C4: for both Command Builder variants and every subset of optional
parameters, `getPublishCommand` places the present options in the fixed order
registry, access, tag, dry-run flag, tarball path after the base command, and
supplying no optional parameter yields exactly `<tool> publish <prefixFlag>
<dir>`. -/
theorem publish_command_fixed_order :
    (∀ (root : String) (r a t : Option String) (d : Option Bool) (tb : Option String),
      npmGetPublishCommand root r a t d tb =
        publishCommandSpec ("npm publish --prefix " ++ root) r a t d tb) ∧
    (∀ (root : String) (r a t : Option String) (d : Option Bool) (tb : Option String),
      yarnGetPublishCommand root r a t d tb =
        publishCommandSpec ("yarn publish --cwd " ++ root) r a t d tb) ∧
    (∀ root : String, npmGetPublishCommand root none none none none none =
      "npm publish --prefix " ++ root) ∧
    (∀ root : String, yarnGetPublishCommand root none none none none none =
      "yarn publish --cwd " ++ root) := by
  refine ⟨npmGetPublishCommand_eq_spec, yarnGetPublishCommand_eq_spec, ?_, ?_⟩
  · intro root
    simp [npmGetPublishCommand, optTruthy, boolTruthy]
  · intro root
    simp [yarnGetPublishCommand, optTruthy, boolTruthy]

/-!
## Package-manager detection (`src/targetPackageManager/detection.ts`)

The on-disk signals consumed by `detectPackageManager` are embedded as a
`ProjectDir` value: presence of `yarn.lock`, presence of `package-lock.json`,
and the state of `package.json` (absent — which also covers a missing
project directory, since `fs.existsSync` is then false for every path;
present but malformed JSON, which the source swallows with `try/catch`;
or parsed with an optional `packageManager` field).
-/

/-- State of the project's `package.json` as seen by `detectPackageManager`. -/
inductive ManifestState where
  | absent : ManifestState
  | malformed : ManifestState
  | parsed (packageManager : Option String) : ManifestState
deriving DecidableEq

/-- On-disk signals of a project directory consumed by the detector. -/
structure ProjectDir where
  yarnLock : Bool
  packageLockJson : Bool
  manifest : ManifestState
deriving DecidableEq

/-- The two Command Builder variants, carrying their project root
(`YarnTargetManager` / `NpmTargetManager` instances). -/
inductive DetectedManager where
  | yarnManager (projectRoot : String)
  | npmManager (projectRoot : String)
deriving DecidableEq

/-- Embeds JavaScript `sep`-splitting of a string (`String.prototype.split`
with a single-character separator), on character lists. -/
def splitOnChar (sep : Char) : List Char → List (List Char)
  | [] => [[]]
  | c :: rest =>
      if c = sep then [] :: splitOnChar sep rest
      else
        match splitOnChar sep rest with
        | [] => [[c]]
        | h :: t => (c :: h) :: t

/-- Embeds `packageJson.packageManager.split('@')[0]` — the destructured
first element of the split (detection.ts line 95). -/
def headSegment (pm : String) : String :=
  match splitOnChar '@' pm.data with
  | [] => pm
  | h :: _ => ⟨h⟩

/-- Embeds `detectPackageManager` (detection.ts lines 78-110). -/
def detectPackageManager (projectRoot : String) (dir : ProjectDir) : DetectedManager :=
  if dir.yarnLock then .yarnManager projectRoot
  else if dir.packageLockJson then .npmManager projectRoot
  else
    match dir.manifest with
    | .parsed (some pm) =>
        if pm != "" then
          let manager := headSegment pm
          if manager = "yarn" then .yarnManager projectRoot
          else if manager = "npm" then .npmManager projectRoot
          else .npmManager projectRoot
        else .npmManager projectRoot
    | _ => .npmManager projectRoot

/-- C3 (amended): `detectPackageManager` is total and applies the strict
priority: `yarn.lock` wins (even over a present `package-lock.json`); else
`package-lock.json` yields npm; else a parsed manifest whose nonempty
`packageManager` value has first `'@'`-segment `"yarn"` yields yarn and
`"npm"` yields npm; in every other case (other first segment, empty field,
missing field, malformed manifest, absent manifest — including a missing
directory) the npm variant is returned. -/
theorem detect_package_manager_priority :
    (∀ (root : String) (dir : ProjectDir), dir.yarnLock = true →
      detectPackageManager root dir = .yarnManager root) ∧
    (∀ (root : String) (dir : ProjectDir), dir.yarnLock = false →
      dir.packageLockJson = true → detectPackageManager root dir = .npmManager root) ∧
    (∀ (root : String) (dir : ProjectDir) (pm : String), dir.yarnLock = false →
      dir.packageLockJson = false → dir.manifest = .parsed (some pm) →
      pm ≠ "" → headSegment pm = "yarn" →
      detectPackageManager root dir = .yarnManager root) ∧
    (∀ (root : String) (dir : ProjectDir) (pm : String), dir.yarnLock = false →
      dir.packageLockJson = false → dir.manifest = .parsed (some pm) →
      pm ≠ "" → headSegment pm = "npm" →
      detectPackageManager root dir = .npmManager root) ∧
    (∀ (root : String) (dir : ProjectDir) (pm : String), dir.yarnLock = false →
      dir.packageLockJson = false → dir.manifest = .parsed (some pm) →
      headSegment pm ≠ "yarn" → headSegment pm ≠ "npm" →
      detectPackageManager root dir = .npmManager root) ∧
    (∀ (root : String) (dir : ProjectDir), dir.yarnLock = false →
      dir.packageLockJson = false →
      (dir.manifest = .absent ∨ dir.manifest = .malformed ∨
        dir.manifest = .parsed none) →
      detectPackageManager root dir = .npmManager root) ∧
    (∀ (root : String) (dir : ProjectDir),
      detectPackageManager root dir = .yarnManager root ∨
      detectPackageManager root dir = .npmManager root) := by
  refine ⟨?_, ?_, ?_, ?_, ?_, ?_, ?_⟩
  · intro root dir h
    simp [detectPackageManager, h]
  · intro root dir h1 h2
    simp [detectPackageManager, h1, h2]
  · intro root dir pm h1 h2 h3 h4 h5
    simp [detectPackageManager, h1, h2, h3, h4, h5]
  · intro root dir pm h1 h2 h3 h4 h5
    simp [detectPackageManager, h1, h2, h3, h4, h5]
  · intro root dir pm h1 h2 h3 h4 h5
    by_cases hpm : pm = ""
    · simp [detectPackageManager, h1, h2, h3, hpm]
    · simp [detectPackageManager, h1, h2, h3, hpm, h4, h5]
  · intro root dir h1 h2 h3
    rcases h3 with h3 | h3 | h3 <;> simp [detectPackageManager, h1, h2, h3]
  · intro root dir
    by_cases hy : dir.yarnLock = true
    · left; simp [detectPackageManager, hy]
    · simp only [Bool.not_eq_true] at hy
      by_cases hp : dir.packageLockJson = true
      · right; simp [detectPackageManager, hy, hp]
      · simp only [Bool.not_eq_true] at hp
        rcases hm : dir.manifest with _ | _ | opm
        · right; simp [detectPackageManager, hy, hp, hm]
        · right; simp [detectPackageManager, hy, hp, hm]
        · rcases opm with _ | pm
          · right; simp [detectPackageManager, hy, hp, hm]
          · by_cases hpm : pm = ""
            · right; simp [detectPackageManager, hy, hp, hm, hpm]
            · by_cases hya : headSegment pm = "yarn"
              · left; simp [detectPackageManager, hy, hp, hm, hpm, hya]
              · by_cases hnp : headSegment pm = "npm"
                · right; simp [detectPackageManager, hy, hp, hm, hpm, hya, hnp]
                · right; simp [detectPackageManager, hy, hp, hm, hpm, hya, hnp]

/-- C3 counterexample to the claim as stated: a directory with no lockfiles
whose parsed manifest declares `packageManager: "yarn"` — a value containing
no `'@'` at all, hence not of the form `<name>@<version>` — is detected as
the yarn variant, while the claim's "in every other case it returns the npm
variant" demands the npm variant. -/
theorem detect_package_manager_claim_counterexample :
    detectPackageManager "/proj" ⟨false, false, .parsed (some "yarn")⟩ =
      .yarnManager "/proj" ∧
    "yarn".data.contains '@' = false ∧
    DetectedManager.yarnManager "/proj" ≠ .npmManager "/proj" := by
  refine ⟨by decide, by decide, by decide⟩

/-!
## Availability polling (`src/repository.ts`, `Repository.poll`, lines 99-122)

The `while (attempts < maxAttempts && !found)` loop is embedded as a
fuel-structured recursion: `fuel` is `maxAttempts - attempts`, the loop body
first increments `attempts` and then invokes the check predicate, so the
predicate is embedded as a function of the (1-based) invocation number.
The fixed 1-second `sleep` between attempts has no effect on the loop's
value and is not modelled.
-/

/-- One-to-one embedding of the polling loop body/guard of `Repository.poll`. -/
def pollAux (check : Nat → Bool) : Nat → Nat → Bool × Nat
  | 0, attempts => (false, attempts)
  | fuel + 1, attempts =>
      let a := attempts + 1
      if check a then (true, a) else pollAux check fuel a

/-- Embeds `Repository.poll` with `maxAttempts = 300`: returns the final
`found` flag together with the number of predicate invocations performed. -/
def poll (check : Nat → Bool) : Bool × Nat :=
  pollAux check 300 0

/-- Embeds the caller's treatment of poll exhaustion
(`release.ts`: `if (!found) this.warn(...)`): exhaustion produces a warning
message, never an error. -/
def availabilityWarning (found : Bool) (name nextVersion : String) : Option String :=
  if found then none
  else some ("Exceeded timeout waiting for " ++ name ++ "@" ++ nextVersion ++
    " to become available")

theorem pollAux_never_found (check : Nat → Bool) (fuel a : Nat)
    (h : ∀ j, a < j → j ≤ a + fuel → check j = false) :
    pollAux check fuel a = (false, a + fuel) := by
  induction fuel generalizing a with
  | zero => simp [pollAux]
  | succ f ih =>
    have hc : check (a + 1) = false := h (a + 1) (by omega) (by omega)
    have hr := ih (a + 1) (fun j hj1 hj2 => h j (by omega) (by omega))
    simp only [pollAux, hc, if_neg, Bool.false_eq_true, not_false_iff, ite_false]
    rw [hr]
    have : a + 1 + f = a + (f + 1) := by omega
    rw [this]

theorem pollAux_first_found (check : Nat → Bool) (fuel a k : Nat)
    (hk1 : a < k) (hk2 : k ≤ a + fuel) (hck : check k = true)
    (hprev : ∀ j, a < j → j < k → check j = false) :
    pollAux check fuel a = (true, k) := by
  induction fuel generalizing a with
  | zero => omega
  | succ f ih =>
    by_cases hk : k = a + 1
    · subst hk
      simp [pollAux, hck]
    · have hc : check (a + 1) = false := hprev (a + 1) (by omega) (by omega)
      simp only [pollAux, hc, Bool.false_eq_true, ite_false]
      exact ih (a + 1) (by omega) (by omega)
        (fun j hj1 hj2 => hprev j (by omega) hj2)

/-- C5: the availability-polling loop always terminates within the fixed cap
of 300 attempts: a predicate first true on invocation `k ≤ 300` is invoked
exactly `k` times and the loop returns `true`; a predicate never true within
the cap is invoked exactly 300 times and the loop returns `false`, and the
caller reports exhaustion as a non-fatal warning message, not an error. -/
theorem poll_attempt_cap :
    (∀ (check : Nat → Bool) (k : Nat), 1 ≤ k → k ≤ 300 → check k = true →
      (∀ j, 1 ≤ j → j < k → check j = false) → poll check = (true, k)) ∧
    (∀ check : Nat → Bool, (∀ j, 1 ≤ j → j ≤ 300 → check j = false) →
      poll check = (false, 300)) ∧
    (∀ (check : Nat → Bool) (name ver : String),
      (∀ j, 1 ≤ j → j ≤ 300 → check j = false) →
      availabilityWarning (poll check).1 name ver =
        some ("Exceeded timeout waiting for " ++ name ++ "@" ++ ver ++
          " to become available")) := by
  refine ⟨?_, ?_, ?_⟩
  · intro check k h1 h2 hck hprev
    exact pollAux_first_found check 300 0 k (by omega) (by omega) hck
      (fun j hj1 hj2 => hprev j (by omega) hj2)
  · intro check h
    exact pollAux_never_found check 300 0 (fun j hj1 hj2 => h j (by omega) (by omega))
  · intro check name ver h
    have hp : poll check = (false, 300) :=
      pollAux_never_found check 300 0 (fun j hj1 hj2 => h j (by omega) (by omega))
    rw [hp]
    simp [availabilityWarning]

/-- Witness for C5: a predicate first true on its 5th invocation terminates
after exactly 5 invocations with `true`; one never true terminates after
exactly 300 invocations with `false` and yields the exhaustion warning. -/
theorem poll_attempt_cap_witness :
    poll (fun n => n == 5) = (true, 5) ∧
    poll (fun _ => false) = (false, 300) ∧
    availabilityWarning (poll (fun _ => false)).1 "pkg" "1.2.3" =
      some "Exceeded timeout waiting for pkg@1.2.3 to become available" := by
  refine ⟨?_, ?_, ?_⟩
  · exact poll_attempt_cap.1 (fun n => n == 5) 5 (by decide) (by decide) (by decide)
      (fun j hj1 hj2 => by simp; omega)
  · exact poll_attempt_cap.2.1 (fun _ => false) (fun j hj1 hj2 => rfl)
  · have h := poll_attempt_cap.2.2 (fun _ => false) "pkg" "1.2.3"
      (fun j hj1 hj2 => rfl)
    rw [h]
    rfl

/-!
## Publish (`src/repository.ts`, `PackageRepo.writeNpmToken` lines 155-161,
`PackageRepo.publish` lines 163-174)

`publish` destructures its options, skips the token check when `dryrun` is
truthy, otherwise requires the `NPM_TOKEN` environment variable, then builds
the publish command via the detected Command Builder variant and executes it.
The environment is embedded as the optional token value; command execution is
embedded by returning the command string that would be executed, and a thrown
`SfError` by `Except.error`.
-/

/-- Options of `PackageRepo.publish`; `tarball` embeds
`signatures?.[0]?.fileTarPath`. -/
structure PublishOpts where
  dryrun : Option Bool := none
  tag : Option String := none
  access : Option String := none
  tarball : Option String := none
deriving DecidableEq

/-- Embeds `PackageRepo.writeNpmToken`: requires a truthy `NPM_TOKEN`.
(The subsequent `registry.setNpmAuth` write is registry-local I/O with no
bearing on the claims.) -/
def writeNpmToken (npmToken : Option String) : Except String Unit :=
  if optTruthy npmToken then Except.ok ()
  else Except.error "NPM_TOKEN environment variable is not set"

/-- Dispatches `this.packageManager.getPublishCommand(...)` to the detected
Command Builder variant. -/
def getPublishCommandFor (m : DetectedManager) (r a t : Option String)
    (d : Option Bool) (tb : Option String) : String :=
  match m with
  | .npmManager root => npmGetPublishCommand root r a t d tb
  | .yarnManager root => yarnGetPublishCommand root r a t d tb

/-- Embeds `PackageRepo.publish`: `if (!dryrun) await this.writeNpmToken();`
then build and execute the publish command.  The `Except.ok` payload is the
shell command handed to `execCommand`; an `Except.error` result means the
command was never built or executed. -/
def packageRepoPublish (manager : DetectedManager) (npmToken : Option String)
    (registryParam : String) (opts : PublishOpts) : Except String String :=
  match (if boolTruthy opts.dryrun then Except.ok () else writeNpmToken npmToken) with
  | .error e => .error e
  | .ok _ => .ok (getPublishCommandFor manager (some registryParam) opts.access
      opts.tag opts.dryrun opts.tarball)

/-- C8: publish requires the `NPM_TOKEN` environment variable before writing
registry auth configuration: when the token is absent (or empty, which the
source's falsiness check also rejects) and the dry-run flag is not set,
publish fails with the fatal missing-token error and never produces (hence
never executes) the delegated publish shell command. -/
theorem publish_requires_npm_token :
    ∀ (manager : DetectedManager) (npmToken : Option String) (registryParam : String)
      (opts : PublishOpts),
      boolTruthy opts.dryrun = false → optTruthy npmToken = false →
      packageRepoPublish manager npmToken registryParam opts =
        Except.error "NPM_TOKEN environment variable is not set" ∧
      ∀ cmd : String, packageRepoPublish manager npmToken registryParam opts ≠
        Except.ok cmd := by
  intro manager npmToken registryParam opts hdry htok
  have h : packageRepoPublish manager npmToken registryParam opts =
      Except.error "NPM_TOKEN environment variable is not set" := by
    simp [packageRepoPublish, writeNpmToken, hdry, htok]
  exact ⟨h, fun cmd hcmd => by rw [h] at hcmd; exact Except.noConfusion hcmd⟩

/-- Witness for C8: with no token in the environment and dry-run unset,
publish on an npm-variant project fails with the missing-token error. -/
theorem publish_requires_npm_token_witness :
    packageRepoPublish (.npmManager "/proj") none "--registry=https://r/" {} =
      Except.error "NPM_TOKEN environment variable is not set" ∧
    packageRepoPublish (.npmManager "/proj") none "--registry=https://r/" {} ≠
      Except.ok "npm publish --prefix /proj --registry=https://r/" := by
  have h := publish_requires_npm_token (.npmManager "/proj") none
    "--registry=https://r/" {} (by decide) (by decide)
  exact ⟨h.1, h.2 "npm publish --prefix /proj --registry=https://r/"⟩

/-- C10: when publish is invoked with the dry-run flag set, the token
presence check is skipped entirely — publish succeeds even with the token
environment variable unset — and the executed command is the builder's
publish command with the `--dry-run` option appended in its fixed position
(after registry, access and tag, before the tarball path). -/
theorem publish_dryrun_skips_token_check :
    (∀ (manager : DetectedManager) (npmToken : Option String) (registryParam : String)
      (tag access tarball : Option String),
      packageRepoPublish manager npmToken registryParam
          ⟨some true, tag, access, tarball⟩ =
        Except.ok (getPublishCommandFor manager (some registryParam) access tag
          (some true) tarball)) ∧
    (∀ (root : String) (r a t tb : Option String),
      npmGetPublishCommand root r a t (some true) tb =
        "npm publish --prefix " ++ root ++ registryPiece r ++ accessPiece a ++
          tagPiece t ++ " --dry-run" ++ tarballPiece tb) ∧
    (∀ (root : String) (r a t tb : Option String),
      yarnGetPublishCommand root r a t (some true) tb =
        "yarn publish --cwd " ++ root ++ registryPiece r ++ accessPiece a ++
          tagPiece t ++ " --dry-run" ++ tarballPiece tb) := by
  refine ⟨?_, ?_, ?_⟩
  · intro manager npmToken registryParam tag access tarball
    simp [packageRepoPublish, boolTruthy]
  · intro root r a t tb
    have h := npmGetPublishCommand_eq_spec root r a t (some true) tb
    rw [h]
    simp [publishCommandSpec, dryRunPiece, boolTruthy]
  · intro root r a t tb
    have h := yarnGetPublishCommand_eq_spec root r a t (some true) tb
    rw [h]
    simp [publishCommandSpec, dryRunPiece, boolTruthy]

/-- Witness for C3 (amended): concrete directories exercising each priority
tier, including the lockfile-precedence case and the `packageManager` field. -/
theorem detect_package_manager_priority_witness :
    detectPackageManager "/p" ⟨true, true, .absent⟩ = .yarnManager "/p" ∧
    detectPackageManager "/p" ⟨false, true, .absent⟩ = .npmManager "/p" ∧
    detectPackageManager "/p" ⟨false, false, .parsed (some "yarn@1.22.19")⟩ =
      .yarnManager "/p" ∧
    detectPackageManager "/p" ⟨false, false, .parsed (some "npm@10.1.0")⟩ =
      .npmManager "/p" ∧
    detectPackageManager "/p" ⟨false, false, .parsed (some "pnpm@8.0.0")⟩ =
      .npmManager "/p" ∧
    detectPackageManager "/p" ⟨false, false, .malformed⟩ = .npmManager "/p" := by
  refine ⟨detect_package_manager_priority.1 "/p" ⟨true, true, .absent⟩ (by decide),
    detect_package_manager_priority.2.1 "/p" ⟨false, true, .absent⟩ (by decide) (by decide),
    detect_package_manager_priority.2.2.1 "/p" ⟨false, false, .parsed (some "yarn@1.22.19")⟩
      "yarn@1.22.19" (by decide) (by decide) rfl (by decide) (by decide),
    detect_package_manager_priority.2.2.2.1 "/p" ⟨false, false, .parsed (some "npm@10.1.0")⟩
      "npm@10.1.0" (by decide) (by decide) rfl (by decide) (by decide),
    detect_package_manager_priority.2.2.2.2.1 "/p" ⟨false, false, .parsed (some "pnpm@8.0.0")⟩
      "pnpm@8.0.0" (by decide) (by decide) rfl (by decide) (by decide),
    detect_package_manager_priority.2.2.2.2.2.1 "/p" ⟨false, false, .malformed⟩
      (by decide) (by decide) (Or.inr (Or.inl rfl))⟩

/-!
## Next-version resolution (`src/repository.ts`, `PackageRepo.init`,
lines 199-220; `src/package.ts`, `Package.nextVersionIsHardcoded`,
lines 328-334)

`PackageRepo.init` resolves the next version once: if the manifest version is
not among the registry's published versions, it is used directly; otherwise
the external `standard-version` tool is run in dry-run mode and its stdout is
matched against the JavaScript regex `/bumping version in .* from .* to (.*)/`
(captured group = resolved version); if it does not match, the version from
`Package.determineNextVersion` is used.

The regex match is embedded for its exact JavaScript semantics: `.` does not
match a newline, so a match is confined to one line; the match starts at the
leftmost viable occurrence of the literal `"bumping version in "`; the two
greedy `.*` pieces make the engine pick the last `" from "` occurrence that
still has a `" to "` after it, and then the last `" to "` after that; the
final greedy `(.*)` captures the rest of the line.

`Package.determineNextVersion` (the local version-increment fallback) is not
part of the sources under verification; since the claim does not constrain
its value, it is passed in as the opaque `fallbackVersion` argument.
-/

/-- Leftmost-match capture group of the JavaScript regex
`/bumping version in .* from .* to (.*)/` on a single newline-free line. -/
def bumpMatchLine (line : List Char) : Option (List Char) :=
  match (tailsAfter "bumping version in ".data line).head? with
  | none => none
  | some r1 =>
      match ((tailsAfter " from ".data r1).filter
          (fun t => !(tailsAfter " to ".data t).isEmpty)).getLast? with
      | none => none
      | some r2 => (tailsAfter " to ".data r2).getLast?

/-- Embeds `result.stdout.match(/bumping version in .* from .* to (.*)/)`,
returning the captured group `match[1]` of the leftmost match. -/
def bumpMatch (stdout : String) : Option String :=
  (splitOnChar '\n' stdout.data).findSome?
    (fun l => (bumpMatchLine l).map (fun cs => (⟨cs⟩ : String)))

/-- Embeds `Package.nextVersionIsHardcoded`:
`!(this.npmPackage.versions ?? []).includes(this.packageJson.version)`
(the `?? []` default is embedded by the caller passing `[]`). -/
def nextVersionIsHardcoded (versions : List String) (manifestVersion : String) : Bool :=
  !(versions.contains manifestVersion)

/-- Embeds the version-resolution chain of `PackageRepo.init`
(repository.ts lines 204-219). -/
def resolveNextVersion (manifestVersion : String) (versions : List String)
    (stdout : String) (fallbackVersion : String) : String :=
  if nextVersionIsHardcoded versions manifestVersion then manifestVersion
  else
    match bumpMatch stdout with
    | some v => v
    | none => fallbackVersion

/-- C1: release initialization resolves the next version by the three-tier
fallback: a manifest version absent from the registry's published list is
used directly; otherwise the external bump tool's dry-run output matching
`bumping version in ... from ... to X` resolves to exactly `X` (including
plain, default-prerelease and named-prerelease forms); an unmatched output
falls back to the local version-increment computation's result. -/
theorem release_version_resolution :
    (∀ (mv fb : String) (versions : List String) (stdout : String),
      versions.contains mv = false →
      resolveNextVersion mv versions stdout fb = mv) ∧
    (∀ (mv fb : String) (versions : List String) (stdout v : String),
      versions.contains mv = true → bumpMatch stdout = some v →
      resolveNextVersion mv versions stdout fb = v) ∧
    (∀ (mv fb : String) (versions : List String) (stdout : String),
      versions.contains mv = true → bumpMatch stdout = none →
      resolveNextVersion mv versions stdout fb = fb) ∧
    bumpMatch "bumping version in package.json from 1.0.0 to 1.1.0" =
      some "1.1.0" ∧
    bumpMatch "bumping version in package.json from 1.0.0 to 1.1.0-0" =
      some "1.1.0-0" ∧
    bumpMatch "bumping version in package.json from 1.0.0 to 1.1.0-beta.0" =
      some "1.1.0-beta.0" := by
  refine ⟨?_, ?_, ?_, by decide, by decide, by decide⟩
  · intro mv fb versions stdout h
    simp only [resolveNextVersion, nextVersionIsHardcoded, h]
    rfl
  · intro mv fb versions stdout v h hm
    simp only [resolveNextVersion, nextVersionIsHardcoded, h, hm]
    rfl
  · intro mv fb versions stdout h hm
    simp only [resolveNextVersion, nextVersionIsHardcoded, h, hm]
    rfl

/-- Witness for C1: the registry-miss tier, the three tool-output forms of
the bump tier, and the unparsable-output fallback tier, each at concrete
inputs. -/
theorem release_version_resolution_witness :
    resolveNextVersion "2.0.0" ["1.0.0", "1.1.0"] "" "FALLBACK" = "2.0.0" ∧
    resolveNextVersion "1.0.0" ["1.0.0"]
      "bumping version in package.json from 1.0.0 to 1.1.0" "FALLBACK" = "1.1.0" ∧
    resolveNextVersion "1.0.0" ["1.0.0"]
      "bumping version in package.json from 1.0.0 to 1.1.0-0" "FALLBACK" = "1.1.0-0" ∧
    resolveNextVersion "1.0.0" ["1.0.0"]
      "bumping version in package.json from 1.0.0 to 1.1.0-beta.0" "FALLBACK" =
      "1.1.0-beta.0" ∧
    resolveNextVersion "1.0.0" ["1.0.0"] "nothing useful here" "FALLBACK" =
      "FALLBACK" := by
  refine ⟨release_version_resolution.1 "2.0.0" "FALLBACK" ["1.0.0", "1.1.0"] "" (by decide),
    release_version_resolution.2.1 "1.0.0" "FALLBACK" ["1.0.0"] _ "1.1.0"
      (by decide) (by decide),
    release_version_resolution.2.1 "1.0.0" "FALLBACK" ["1.0.0"] _ "1.1.0-0"
      (by decide) (by decide),
    release_version_resolution.2.1 "1.0.0" "FALLBACK" ["1.0.0"] _ "1.1.0-beta.0"
      (by decide) (by decide),
    release_version_resolution.2.2.1 "1.0.0" "FALLBACK" ["1.0.0"]
      "nothing useful here" (by decide) (by decide)⟩

/-!
## Package-identifier parsing (`src/commands/npm/package/verify.ts`,
`Verify.run`, lines 390-411)

`flags.npm.split('@')` produces the `'@'`-delimited segments; a scoped
identifier (leading `'@'`) throws `Invalid package format` when there are
fewer than three segments, an unscoped one when there are fewer than two;
otherwise name and version are taken from the fixed segment positions
(any further segments are ignored).
-/

/-- Embeds `flags.npm.split('@')` as a list of strings. -/
def npmPartsOf (npm : String) : List String :=
  (splitOnChar '@' npm.data).map (fun cs => (⟨cs⟩ : String))

/-- Embeds the package-identifier parsing of `Verify.run`; `Except.error`
embeds the thrown fatal `SfError`. -/
def parsePackageIdentifier (npm : String) : Except String (String × String) :=
  let npmParts := npmPartsOf npm
  if startsWithStr npm "@" then
    if npmParts.length < 3 then
      .error ("Invalid package format. Expected @scope/package@version but got " ++ npm)
    else
      .ok ("@" ++ npmParts.getD 1 "", npmParts.getD 2 "")
  else
    if npmParts.length < 2 then
      .error ("Invalid package format. Expected package@version but got " ++ npm)
    else
      .ok (npmParts.getD 0 "", npmParts.getD 1 "")

/-- C6 (amended): the verify operation's package-identifier parsing accepts a
scoped identifier exactly when it has at least three `'@'`-delimited segments
(taking the scope/name from segment 2 and the version from segment 3, further
segments ignored) and an unscoped identifier exactly when it has at least two
segments; an identifier with fewer segments causes the fatal
`Invalid package format` input error rather than a `{verified: false}`
result. -/
theorem verify_package_identifier_parsing :
    (∀ npm : String, startsWithStr npm "@" = true → 3 ≤ (npmPartsOf npm).length →
      parsePackageIdentifier npm =
        .ok ("@" ++ (npmPartsOf npm).getD 1 "", (npmPartsOf npm).getD 2 "")) ∧
    (∀ npm : String, startsWithStr npm "@" = true → (npmPartsOf npm).length < 3 →
      parsePackageIdentifier npm =
        .error ("Invalid package format. Expected @scope/package@version but got " ++ npm)) ∧
    (∀ npm : String, startsWithStr npm "@" = false → 2 ≤ (npmPartsOf npm).length →
      parsePackageIdentifier npm =
        .ok ((npmPartsOf npm).getD 0 "", (npmPartsOf npm).getD 1 "")) ∧
    (∀ npm : String, startsWithStr npm "@" = false → (npmPartsOf npm).length < 2 →
      parsePackageIdentifier npm =
        .error ("Invalid package format. Expected package@version but got " ++ npm)) := by
  refine ⟨?_, ?_, ?_, ?_⟩
  · intro npm h1 h2
    simp only [parsePackageIdentifier, h1, if_true]
    rw [if_neg (by omega)]
  · intro npm h1 h2
    simp only [parsePackageIdentifier, h1, if_true]
    rw [if_pos (by omega)]
  · intro npm h1 h2
    simp only [parsePackageIdentifier, h1, Bool.false_eq_true, if_false]
    rw [if_neg (by omega)]
  · intro npm h1 h2
    simp only [parsePackageIdentifier, h1, Bool.false_eq_true, if_false]
    rw [if_pos (by omega)]

/-- Witness for C6 (amended): a well-formed scoped and unscoped identifier
parse to their (name, version) pair, and identifiers with too few segments
raise the fatal format error. -/
theorem verify_package_identifier_parsing_witness :
    parsePackageIdentifier "@scope/pkg@1.0.0" = .ok ("@scope/pkg", "1.0.0") ∧
    parsePackageIdentifier "@scope/pkg" =
      .error "Invalid package format. Expected @scope/package@version but got @scope/pkg" ∧
    parsePackageIdentifier "pkg@1.0.0" = .ok ("pkg", "1.0.0") ∧
    parsePackageIdentifier "pkg" =
      .error "Invalid package format. Expected package@version but got pkg" := by
  refine ⟨verify_package_identifier_parsing.1 "@scope/pkg@1.0.0" (by decide) (by decide),
    verify_package_identifier_parsing.2.1 "@scope/pkg" (by decide) (by decide),
    verify_package_identifier_parsing.2.2.1 "pkg@1.0.0" (by decide) (by decide),
    verify_package_identifier_parsing.2.2.2 "pkg" (by decide) (by decide)⟩

/-- C6 counterexample to the claim as stated: the source checks
`npmParts.length < 3` (scoped) and `< 2` (unscoped), so identifiers with
MORE than the stated "exactly three" / "exactly two" segments are accepted
rather than rejected: `pkg@1.0.0@junk` has three segments yet parses as an
unscoped package, and `@scope/pkg@1.0.0@junk` has four segments yet parses
as a scoped package. -/
theorem verify_package_identifier_claim_counterexample :
    (npmPartsOf "pkg@1.0.0@junk").length = 3 ∧
    parsePackageIdentifier "pkg@1.0.0@junk" = .ok ("pkg", "1.0.0") ∧
    (npmPartsOf "@scope/pkg@1.0.0@junk").length = 4 ∧
    parsePackageIdentifier "@scope/pkg@1.0.0@junk" = .ok ("@scope/pkg", "1.0.0") := by
  exact ⟨rfl, rfl, rfl, rfl⟩

/-!
## npm-alias parsing and dependency lookup (`src/package.ts`,
`parseAliasedPackageName` lines 75-77, `parsePackageVersion` lines 79-82,
`Package.getDependencyInfo` lines 183-218)

`parseAliasedPackageName` removes the first occurrence of the literal
`"npm:"` and then deletes, up to the end of the string, the leftmost match of
the JavaScript regex `/@(\^|~)?[0-9]{1,3}(?:.[0-9]{1,3})?(?:.[0-9]{1,3})?(.*?)$/`.
Because the regex's optional groups and lazy tail can absorb any non-newline
characters up to the end, a position starts a match exactly when it holds
`'@'` followed by an optional `'^'`/`'~'` and a digit, with no newline in the
remainder (JavaScript `.` does not match a newline and `$` only matches at
the very end without the `m` flag).

`parsePackageVersion` returns `match[0]` of
`/[0-9]{1,3}(?:.[0-9]{1,3})?(?:.[0-9]{1,3})?(.*?)$/`: by the same reasoning
that is the whole remainder of the string from the first digit that has no
newline after it; when the string has no such digit, `regex.exec` is `null`
and the source crashes on `[0]` — embedded as `none`.
-/

/-- Removes the first occurrence of `pat` (JavaScript
`s.replace(pat, '')` with a string pattern). -/
def removeFirstOcc (pat : List Char) : List Char → List Char
  | [] => []
  | c :: rest =>
      if pat.isPrefixOf (c :: rest) then (c :: rest).drop pat.length
      else c :: removeFirstOcc pat rest

/-- No newline character in the remainder — a JavaScript regex whose pieces
are all `.`-or-digit classes can only reach `$` over such a remainder. -/
def noNewline (s : List Char) : Bool :=
  !(s.contains '\n')

/-- Does this position start `@(\^|~)?[0-9]`? -/
def versionAnchor : List Char → Bool
  | '@' :: c :: rest =>
      c.isDigit ||
        ((c = '^' || c = '~') &&
          (match rest with
           | d :: _ => d.isDigit
           | [] => false))
  | _ => false

/-- Deletes from the leftmost match of the version-suffix regex to the end
(the `replace(..., '')` of `parseAliasedPackageName`). -/
def cutAtVersionTag : List Char → List Char
  | [] => []
  | c :: rest =>
      if versionAnchor (c :: rest) && noNewline (c :: rest) then []
      else c :: cutAtVersionTag rest

/-- Embeds `parseAliasedPackageName` (package.ts lines 75-77). -/
def parseAliasedPackageName (npmAlias : String) : String :=
  ⟨cutAtVersionTag (removeFirstOcc "npm:".data npmAlias.data)⟩

/-- The suffix from the first digit with no newline after it — `match[0]` of
the version regex. -/
def findVersionStart : List Char → Option (List Char)
  | [] => none
  | c :: rest =>
      if c.isDigit && noNewline (c :: rest) then some (c :: rest)
      else findVersionStart rest

/-- Embeds `parsePackageVersion` (package.ts lines 79-82); `none` embeds the
crash of `regex.exec(alias)[0]` on a string the regex does not match. -/
def parsePackageVersion (npmAlias : String) : Option String :=
  (findVersionStart npmAlias.data).map (fun cs => (⟨cs⟩ : String))

/-- Return type of `Package.getDependencyInfo` (the `DependencyInfo`
interface of package.ts, lines 67-73). -/
structure DependencyInfo where
  dependencyName : String
  packageName : String
  npmAlias : Option String
  currentVersion : Option String
deriving DecidableEq

/-- Embeds `Package.getDependencyInfo` (package.ts lines 183-218), iterating
over the manifest's dependency entries in insertion order; `none` embeds the
fatal `cli.error` when no entry matches.  (The source's `alias` field is
called `npmAlias` here.) -/
def getDependencyInfo (name : String) : List (String × String) → Option DependencyInfo
  | [] => none
  | (key, value) :: rest =>
      if key = name then
        if startsWithStr value "npm:" then
          some ⟨key, parseAliasedPackageName value, some value, parsePackageVersion value⟩
        else
          some ⟨key, key, none, some value⟩
      else if includesStr value ("npm:" ++ name) then
        some ⟨key, name, some value, parsePackageVersion value⟩
      else getDependencyInfo name rest

theorem getDependencyInfo_skip_nonmatching (name v : String)
    (deps₁ deps₂ : List (String × String))
    (h : ∀ p ∈ deps₁, p.1 ≠ name ∧ includesStr p.2 ("npm:" ++ name) = false) :
    getDependencyInfo name (deps₁ ++ (name, v) :: deps₂) =
      getDependencyInfo name ((name, v) :: deps₂) := by
  induction deps₁ with
  | nil => rfl
  | cons p ps ih =>
    obtain ⟨h1, h2⟩ := h p (List.mem_cons_self p ps)
    cases p with
    | mk key value =>
      have step : getDependencyInfo name ((key, value) :: (ps ++ (name, v) :: deps₂)) =
          getDependencyInfo name (ps ++ (name, v) :: deps₂) := by
        simp only [getDependencyInfo]
        rw [if_neg h1, if_neg (by simp [h2])]
      rw [List.cons_append, step]
      exact ih (fun q hq => h q (List.mem_cons_of_mem _ hq))

/-- C9: dependency lookup distinguishes an npm alias spec from a plain spec:
when the looked-up entry is reached (no earlier entry has the same key or
mentions `npm:<name>` in its value), an alias-form value yields the real
package name via `parseAliasedPackageName` and the version via
`parsePackageVersion`, while a plain value yields the dependency key itself
with a null alias; the parsers handle scoped real names and caret/tilde,
pre-release and build-metadata version tails. -/
theorem dependency_alias_resolution :
    (∀ (deps₁ deps₂ : List (String × String)) (name v : String),
      (∀ p ∈ deps₁, p.1 ≠ name ∧ includesStr p.2 ("npm:" ++ name) = false) →
      (startsWithStr v "npm:" = true →
        getDependencyInfo name (deps₁ ++ (name, v) :: deps₂) =
          some ⟨name, parseAliasedPackageName v, some v, parsePackageVersion v⟩) ∧
      (startsWithStr v "npm:" = false →
        getDependencyInfo name (deps₁ ++ (name, v) :: deps₂) =
          some ⟨name, name, none, some v⟩)) ∧
    parseAliasedPackageName "npm:@salesforce/plugin-info@^2.0.1" =
      "@salesforce/plugin-info" ∧
    parsePackageVersion "npm:@salesforce/plugin-info@^2.0.1" = some "2.0.1" ∧
    parseAliasedPackageName "npm:foo@~1.2.3-beta.4+build.5" = "foo" ∧
    parsePackageVersion "npm:foo@~1.2.3-beta.4+build.5" =
      some "1.2.3-beta.4+build.5" ∧
    parseAliasedPackageName "npm:bar@1.1.0-0" = "bar" ∧
    parsePackageVersion "npm:bar@1.1.0-0" = some "1.1.0-0" := by
  refine ⟨?_, rfl, rfl, rfl, rfl, rfl, rfl⟩
  intro deps₁ deps₂ name v h
  rw [getDependencyInfo_skip_nonmatching name v deps₁ deps₂ h]
  constructor
  · intro hs
    simp [getDependencyInfo, hs]
  · intro hs
    simp [getDependencyInfo, hs]

/-- Witness for C9: lookup of an alias-form and of a plain-form dependency
entry sitting after a non-matching entry. -/
theorem dependency_alias_resolution_witness :
    getDependencyInfo "@sf/info"
        [("chalk", "^5.0.0"), ("@sf/info", "npm:@salesforce/plugin-info@^2.0.1")] =
      some ⟨"@sf/info", "@salesforce/plugin-info",
        some "npm:@salesforce/plugin-info@^2.0.1", some "2.0.1"⟩ ∧
    getDependencyInfo "chalk" [("chalk", "^5.0.0")] =
      some ⟨"chalk", "chalk", none, some "^5.0.0"⟩ := by
  refine ⟨?_, ?_⟩
  · exact ((dependency_alias_resolution.1 [("chalk", "^5.0.0")] [] "@sf/info"
      "npm:@salesforce/plugin-info@^2.0.1" (by decide)).1 (by decide))
  · exact ((dependency_alias_resolution.1 [] [] "chalk" "^5.0.0" (by decide)).2 (by decide))

/-!
## Signature-bundle resolution (`src/commands/npm/package/verify.ts`,
`Verify.extractSignatureInfo` lines 331-382, `Verify.run` lines 449-465)

The registry's per-version metadata (`VersionData`) is typed in the source,
so its `signatures`/`sfdx` fields are either absent or complete; the
`package.json` extracted from the tarball is untyped JSON, so each of its
`signatures`/`sfdx` members may be present with non-string fields — a field
is embedded as `some` exactly when the JSON value is a string, matching the
source's `typeof ... === 'string'` guards.
-/

/-- A resolved signature bundle: the two artifact URLs. -/
structure SigInfo where
  signatureUrl : String
  publicKeyUrl : String
deriving DecidableEq

/-- Registry per-version metadata consumed by the verify flow
(`VersionData` in verify.ts). -/
structure VersionData where
  distTarball : String
  signatures : Option SigInfo
  sfdx : Option SigInfo
deriving DecidableEq

/-- An untyped `signatures`/`sfdx` member of the tarball's `package.json`:
each field is `some` exactly when it is a string. -/
structure TarballSigField where
  signatureUrl : Option String
  publicKeyUrl : Option String
deriving DecidableEq

/-- The tarball-embedded `package.json` fields consulted by
`extractSignatureInfo`. -/
structure TarballPackageJson where
  signatures : Option TarballSigField
  sfdx : Option TarballSigField
deriving DecidableEq

/-- The legacy-`sfdx` check on the tarball manifest (verify.ts lines
368-377); reached only when the new-schema check did not return. -/
def tarballSfdxInfo (tpj : TarballPackageJson) : Option SigInfo :=
  match tpj.sfdx with
  | some g =>
      match g.signatureUrl, g.publicKeyUrl with
      | some su, some ku => some ⟨su, ku⟩
      | _, _ => none
  | none => none

/-- The tarball-manifest half of `extractSignatureInfo` (verify.ts lines
352-378): new-schema `signatures` first, falling through to legacy `sfdx`
when absent or when either field is not a string. -/
def tarballSignatureInfo (tpj : TarballPackageJson) : Option SigInfo :=
  match tpj.signatures with
  | some f =>
      match f.signatureUrl, f.publicKeyUrl with
      | some su, some ku => some ⟨su, ku⟩
      | _, _ => tarballSfdxInfo tpj
  | none => tarballSfdxInfo tpj

/-- Embeds `Verify.extractSignatureInfo` (verify.ts lines 331-382). -/
def extractSignatureInfo (versionData : VersionData)
    (tarballPackageJson : Option TarballPackageJson) : Option SigInfo :=
  match versionData.signatures with
  | some s => some s
  | none =>
      match versionData.sfdx with
      | some s => some ⟨s.signatureUrl, s.publicKeyUrl⟩
      | none =>
          match tarballPackageJson with
          | some tpj => tarballSignatureInfo tpj
          | none => none

/-- Is the tarball-manifest member present with both fields strings? -/
def tarballFieldPresent : Option TarballSigField → Bool
  | some ⟨some _, some _⟩ => true
  | _ => false

/-- `NotSigned` message of `messages/npm.package.verify.md`. -/
def notSignedMessage : String := "This package is not digitally signed."

/-- `FailedDigitalSignatureVerification` message. -/
def failedVerificationMessage : String := "Failed to verify the digital signature."

/-- `SignatureCheckSuccess` message. -/
def signatureCheckSuccessMessage (name version : String) : String :=
  "Successfully verified digital signature for " ++ name ++ "@" ++ version

/-- Result shape of the verify command. -/
structure VerifyResponse where
  message : String
  verified : Bool
deriving DecidableEq

/-- Embeds the tail of `Verify.run` after the tarball download (verify.ts
lines 449-481): resolve the signature bundle; when none is found return the
not-signed result normally; otherwise download the signature and public key
(the returned list of URLs) and either succeed or raise the fatal
failed-verification error (`this.error(...)` throws).  `cryptoVerified`
stands for the outcome of the RSA-SHA256 check on the downloaded artifacts. -/
def signaturePhase (versionData : VersionData)
    (tarballPackageJson : Option TarballPackageJson) (packageName version : String)
    (cryptoVerified : Bool) : Except String VerifyResponse × List String :=
  match extractSignatureInfo versionData tarballPackageJson with
  | none => (.ok ⟨notSignedMessage, false⟩, [])
  | some info =>
      (if cryptoVerified then
        .ok ⟨signatureCheckSuccessMessage packageName version, true⟩
       else .error failedVerificationMessage,
       [info.signatureUrl, info.publicKeyUrl])

/-- C2: signature-bundle resolution checks the four locations in the fixed
order registry `signatures`, registry legacy `sfdx`, tarball-manifest
`signatures`, tarball-manifest legacy `sfdx`, first present location
winning; when none is present, verify returns `{verified: false}` with the
not-signed message as a normal (non-error) result and requests no signature
or public-key download (empty download list). -/
theorem signature_bundle_fixed_order :
    (∀ (vd : VersionData) (tpj : Option TarballPackageJson) (s : SigInfo),
      vd.signatures = some s → extractSignatureInfo vd tpj = some s) ∧
    (∀ (vd : VersionData) (tpj : Option TarballPackageJson) (s : SigInfo),
      vd.signatures = none → vd.sfdx = some s →
      extractSignatureInfo vd tpj = some s) ∧
    (∀ (vd : VersionData) (t : TarballPackageJson) (su ku : String),
      vd.signatures = none → vd.sfdx = none →
      t.signatures = some ⟨some su, some ku⟩ →
      extractSignatureInfo vd (some t) = some ⟨su, ku⟩) ∧
    (∀ (vd : VersionData) (t : TarballPackageJson) (su ku : String),
      vd.signatures = none → vd.sfdx = none →
      tarballFieldPresent t.signatures = false →
      t.sfdx = some ⟨some su, some ku⟩ →
      extractSignatureInfo vd (some t) = some ⟨su, ku⟩) ∧
    (∀ vd : VersionData, vd.signatures = none → vd.sfdx = none →
      extractSignatureInfo vd none = none) ∧
    (∀ (vd : VersionData) (t : TarballPackageJson),
      vd.signatures = none → vd.sfdx = none →
      tarballFieldPresent t.signatures = false →
      tarballFieldPresent t.sfdx = false →
      extractSignatureInfo vd (some t) = none) ∧
    (∀ (vd : VersionData) (tpj : Option TarballPackageJson) (pn pv : String)
      (c : Bool), extractSignatureInfo vd tpj = none →
      signaturePhase vd tpj pn pv c = (.ok ⟨notSignedMessage, false⟩, [])) ∧
    (∀ (vd : VersionData) (tpj : Option TarballPackageJson) (pn pv : String)
      (c : Bool) (info : SigInfo), extractSignatureInfo vd tpj = some info →
      (signaturePhase vd tpj pn pv c).2 = [info.signatureUrl, info.publicKeyUrl]) := by
  refine ⟨?_, ?_, ?_, ?_, ?_, ?_, ?_, ?_⟩
  · intro vd tpj s h
    simp [extractSignatureInfo, h]
  · intro vd tpj s h1 h2
    simp [extractSignatureInfo, h1, h2]
  · intro vd t su ku h1 h2 h3
    simp [extractSignatureInfo, h1, h2, tarballSignatureInfo, h3]
  · intro vd t su ku h1 h2 h3 h4
    rcases hs : t.signatures with _ | f
    · simp [extractSignatureInfo, h1, h2, tarballSignatureInfo, hs, tarballSfdxInfo, h4]
    · rcases f with ⟨su', ku'⟩
      rcases su' with _ | su' <;> rcases ku' with _ | ku' <;>
        simp_all [extractSignatureInfo, h1, h2, tarballSignatureInfo, hs,
          tarballSfdxInfo, h4, tarballFieldPresent]
  · intro vd h1 h2
    simp [extractSignatureInfo, h1, h2]
  · intro vd t h1 h2 h3 h4
    have hsf : tarballSfdxInfo t = none := by
      rcases hx : t.sfdx with _ | g
      · simp [tarballSfdxInfo, hx]
      · rcases g with ⟨su', ku'⟩
        rcases su' with _ | su' <;> rcases ku' with _ | ku' <;>
          simp_all [tarballSfdxInfo, hx, tarballFieldPresent]
    rcases hs : t.signatures with _ | f
    · simp [extractSignatureInfo, h1, h2, tarballSignatureInfo, hs, hsf]
    · rcases f with ⟨su', ku'⟩
      rcases su' with _ | su' <;> rcases ku' with _ | ku' <;>
        simp_all [extractSignatureInfo, h1, h2, tarballSignatureInfo, hs,
          tarballFieldPresent]
  · intro vd tpj pn pv c h
    simp [signaturePhase, h]
  · intro vd tpj pn pv c info h
    simp [signaturePhase, h]

/-- Witness for C2: each resolution tier at concrete metadata values, and
the not-signed outcome with its empty download list. -/
theorem signature_bundle_fixed_order_witness :
    extractSignatureInfo ⟨"https://t", some ⟨"s1", "k1"⟩, some ⟨"s2", "k2"⟩⟩
      (some ⟨some ⟨some "s3", some "k3"⟩, some ⟨some "s4", some "k4"⟩⟩) =
      some ⟨"s1", "k1"⟩ ∧
    extractSignatureInfo ⟨"https://t", none, some ⟨"s2", "k2"⟩⟩
      (some ⟨some ⟨some "s3", some "k3"⟩, some ⟨some "s4", some "k4"⟩⟩) =
      some ⟨"s2", "k2"⟩ ∧
    extractSignatureInfo ⟨"https://t", none, none⟩
      (some ⟨some ⟨some "s3", some "k3"⟩, some ⟨some "s4", some "k4"⟩⟩) =
      some ⟨"s3", "k3"⟩ ∧
    extractSignatureInfo ⟨"https://t", none, none⟩
      (some ⟨none, some ⟨some "s4", some "k4"⟩⟩) = some ⟨"s4", "k4"⟩ ∧
    extractSignatureInfo ⟨"https://t", none, none⟩ none = none ∧
    extractSignatureInfo ⟨"https://t", none, none⟩ (some ⟨none, none⟩) = none ∧
    signaturePhase ⟨"https://t", none, none⟩ (some ⟨none, none⟩) "pkg" "1.0.0" true =
      (.ok ⟨notSignedMessage, false⟩, []) ∧
    (signaturePhase ⟨"https://t", some ⟨"s1", "k1"⟩, none⟩ none "pkg" "1.0.0" true).2 =
      ["s1", "k1"] := by
  refine ⟨signature_bundle_fixed_order.1 _ _ ⟨"s1", "k1"⟩ rfl,
    signature_bundle_fixed_order.2.1 _ _ ⟨"s2", "k2"⟩ rfl rfl,
    signature_bundle_fixed_order.2.2.1 _ _ "s3" "k3" rfl rfl rfl,
    signature_bundle_fixed_order.2.2.2.1 _ _ "s4" "k4" rfl rfl rfl rfl,
    signature_bundle_fixed_order.2.2.2.2.1 _ rfl rfl,
    signature_bundle_fixed_order.2.2.2.2.2.1 _ _ rfl rfl rfl rfl,
    signature_bundle_fixed_order.2.2.2.2.2.2.1 _ _ "pkg" "1.0.0" true rfl,
    signature_bundle_fixed_order.2.2.2.2.2.2.2 _ _ "pkg" "1.0.0" true ⟨"s1", "k1"⟩ rfl⟩

/-!
## Registry authentication (`src/commands/npm/package/verify.ts`,
`Verify.getNpmMetadata` lines 74-169, `Verify.downloadTarball` /
`Verify.downloadFile` header blocks)

The metadata request chooses `Bearer` vs `token` by testing whether the
REGISTRY string contains `'pkg.github.com'` (line 104), while the artifact
downloads test the request URL itself (lines 183, 222).  The metadata
request URL is `formattedRegistry + packageName` in both branches of the
source's GitHub/standard `if` (lines 79-93).  An HTTP 401/403 on the
metadata fetch is classified into one of two distinct fatal authentication
messages depending on the registry (lines 148-158).
-/

/-- The GitHub Packages host marker tested by the source. -/
def ghMarker : String := "pkg.github.com"

/-- Embeds `registry.endsWith('/')`. -/
def endsWithSlash (s : String) : Bool :=
  match s.data.getLast? with
  | some c => c = '/'
  | none => false

/-- Embeds `const formattedRegistry = registry.endsWith('/') ? registry :
registry + '/'`. -/
def formattedRegistry (registry : String) : String :=
  if endsWithSlash registry then registry else registry ++ "/"

/-- The metadata request URL: `formattedRegistry + packageName`
(identical in both branches of the source's registry-type `if`). -/
def packageUrl (registry packageName : String) : String :=
  formattedRegistry registry ++ packageName

/-- Authorization header of the metadata request (verify.ts lines 96-112):
keyed on the REGISTRY string containing the marker. -/
def metadataAuthHeader (npmToken : Option String) (registry : String) : Option String :=
  if optTruthy npmToken then
    some (if includesStr registry ghMarker then "Bearer " ++ npmToken.getD ""
          else "token " ++ npmToken.getD "")
  else none

/-- Authorization header of the tarball/signature/public-key downloads
(verify.ts lines 176-189 and 215-228): keyed on the request URL containing
the marker. -/
def downloadAuthHeader (npmToken : Option String) (url : String) : Option String :=
  if optTruthy npmToken then
    some (if includesStr url ghMarker then "Bearer " ++ npmToken.getD ""
          else "token " ++ npmToken.getD "")
  else none

/-- The metadata HTTP request as issued: URL and optional auth header. -/
def metadataRequest (packageName registry : String) (npmToken : Option String) :
    String × Option String :=
  (packageUrl registry packageName, metadataAuthHeader npmToken registry)

/-- The 401/403 message for a GitHub Packages registry (verify.ts
lines 150-153). -/
def ghAuthErrorMessage (pUrl : String) (status : Nat) : String :=
  "Authentication failed for GitHub Packages. Make sure your NPM_TOKEN environment variable contains a valid GitHub Personal Access Token with package read permissions. URL: " ++
    pUrl ++ " - Status: " ++ toString status

/-- The 401/403 message for a generic registry (verify.ts lines 154-156). -/
def genericAuthErrorMessage (pUrl : String) (status : Nat) : String :=
  "Authentication failed. Make sure your NPM_TOKEN environment variable is properly set. URL: " ++
    pUrl ++ " - Status: " ++ toString status

/-- Embeds the `HTTPError` classification of `Verify.getNpmMetadata`
(verify.ts lines 142-166). -/
def classifyMetadataHttpError (registry packageName errMsg : String)
    (status : Nat) : String :=
  let pUrl := packageUrl registry packageName
  if status = 404 then
    "Package not found: " ++ packageName ++ " - URL: " ++ pUrl
  else if status = 401 ∨ status = 403 then
    if includesStr registry ghMarker then ghAuthErrorMessage pUrl status
    else genericAuthErrorMessage pUrl status
  else
    "Failed to fetch package metadata: " ++ errMsg ++ " - URL: " ++ pUrl ++
      " - Status: " ++ toString status

/-- Embeds `Object.keys(metadata.versions).join(', ')`. -/
def joinComma : List String → String
  | [] => ""
  | [s] => s
  | s :: rest => s ++ ", " ++ joinComma rest

/-- Registry package metadata as parsed from the response body. -/
structure NpmMetadata where
  versions : List (String × VersionData)
deriving DecidableEq

/-- Embeds the response handling of `Verify.getNpmMetadata` (verify.ts lines
114-168): the HTTP outcome is passed in as either a failure status (with the
transport error text) or the parsed metadata. -/
def getNpmMetadata (packageName version registry : String)
    (response : Except (Nat × String) NpmMetadata) : Except String VersionData :=
  match response with
  | .error (status, errMsg) =>
      .error (classifyMetadataHttpError registry packageName errMsg status)
  | .ok md =>
      if md.versions.isEmpty then
        .error ("No versions found for package " ++ packageName ++ " in registry " ++
          registry)
      else
        match md.versions.lookup version with
        | some vd => .ok vd
        | none =>
            .error ("Version " ++ version ++ " not found for package " ++ packageName ++
              ". Available versions: " ++ joinComma (md.versions.map Prod.fst))

theorem string_length_append (a b : String) :
    (a ++ b).length = a.length + b.length := by
  show (a ++ b).data.length = a.data.length + b.data.length
  rw [String.data_append, List.length_append]

theorem gh_generic_auth_messages_differ (u : String) (s : Nat) :
    ghAuthErrorMessage u s ≠ genericAuthErrorMessage u s := by
  intro h
  have hl := congrArg String.length h
  simp only [ghAuthErrorMessage, genericAuthErrorMessage, string_length_append] at hl
  have e1 : ("Authentication failed for GitHub Packages. Make sure your NPM_TOKEN environment variable contains a valid GitHub Personal Access Token with package read permissions. URL: " : String).length = 171 := rfl
  have e2 : ("Authentication failed. Make sure your NPM_TOKEN environment variable is properly set. URL: " : String).length = 91 := rfl
  rw [e1, e2] at hl
  omega

/-- C7 (amended): with a nonempty token in the environment, the verify
flow's metadata request carries `Bearer <token>` exactly when the configured
REGISTRY string contains the GitHub Packages marker and `token <token>`
otherwise, while each artifact download carries `Bearer <token>` exactly
when its request URL contains the marker and `token <token>` otherwise; an
HTTP 401 or 403 on the metadata fetch raises a fatal authentication error,
and the GitHub Packages message differs from the generic-registry message
for every URL and status. -/
theorem verify_auth_headers :
    (∀ (t registry : String), t ≠ "" → includesStr registry ghMarker = true →
      metadataAuthHeader (some t) registry = some ("Bearer " ++ t)) ∧
    (∀ (t registry : String), t ≠ "" → includesStr registry ghMarker = false →
      metadataAuthHeader (some t) registry = some ("token " ++ t)) ∧
    (∀ (t url : String), t ≠ "" → includesStr url ghMarker = true →
      downloadAuthHeader (some t) url = some ("Bearer " ++ t)) ∧
    (∀ (t url : String), t ≠ "" → includesStr url ghMarker = false →
      downloadAuthHeader (some t) url = some ("token " ++ t)) ∧
    (∀ (registry packageName errMsg v : String) (status : Nat),
      (status = 401 ∨ status = 403) → includesStr registry ghMarker = true →
      getNpmMetadata packageName v registry (.error (status, errMsg)) =
        .error (ghAuthErrorMessage (packageUrl registry packageName) status)) ∧
    (∀ (registry packageName errMsg v : String) (status : Nat),
      (status = 401 ∨ status = 403) → includesStr registry ghMarker = false →
      getNpmMetadata packageName v registry (.error (status, errMsg)) =
        .error (genericAuthErrorMessage (packageUrl registry packageName) status)) ∧
    (∀ (u : String) (s : Nat), ghAuthErrorMessage u s ≠ genericAuthErrorMessage u s) := by
  refine ⟨?_, ?_, ?_, ?_, ?_, ?_, gh_generic_auth_messages_differ⟩
  · intro t registry ht hm
    simp [metadataAuthHeader, optTruthy, ht, hm]
  · intro t registry ht hm
    simp [metadataAuthHeader, optTruthy, ht, hm]
  · intro t url ht hm
    simp [downloadAuthHeader, optTruthy, ht, hm]
  · intro t url ht hm
    simp [downloadAuthHeader, optTruthy, ht, hm]
  · intro registry packageName errMsg v status hst hm
    rcases hst with h | h <;> subst h <;>
      simp [getNpmMetadata, classifyMetadataHttpError, hm]
  · intro registry packageName errMsg v status hst hm
    rcases hst with h | h <;> subst h <;>
      simp [getNpmMetadata, classifyMetadataHttpError, hm]

/-- Witness for C7 (amended): concrete headers for a GitHub Packages
registry and for the public npm registry, and the two distinct fatal
401 classifications. -/
theorem verify_auth_headers_witness :
    metadataAuthHeader (some "tok") "https://npm.pkg.github.com/" =
      some "Bearer tok" ∧
    metadataAuthHeader (some "tok") "https://registry.npmjs.org/" =
      some "token tok" ∧
    downloadAuthHeader (some "tok") "https://npm.pkg.github.com/download/x/1.0.0" =
      some "Bearer tok" ∧
    downloadAuthHeader (some "tok") "https://registry.npmjs.org/x/-/x-1.0.0.tgz" =
      some "token tok" ∧
    getNpmMetadata "x" "1.0.0" "https://npm.pkg.github.com/" (.error (401, "e")) =
      .error (ghAuthErrorMessage "https://npm.pkg.github.com/x" 401) ∧
    getNpmMetadata "x" "1.0.0" "https://registry.npmjs.org/" (.error (403, "e")) =
      .error (genericAuthErrorMessage "https://registry.npmjs.org/x" 403) ∧
    ghAuthErrorMessage "https://npm.pkg.github.com/x" 401 ≠
      genericAuthErrorMessage "https://npm.pkg.github.com/x" 401 := by
  refine ⟨verify_auth_headers.1 "tok" _ (by decide) (by decide),
    verify_auth_headers.2.1 "tok" _ (by decide) (by decide),
    verify_auth_headers.2.2.1 "tok" _ (by decide) (by decide),
    verify_auth_headers.2.2.2.1 "tok" _ (by decide) (by decide),
    verify_auth_headers.2.2.2.2.1 _ "x" "e" "1.0.0" 401 (Or.inl rfl) (by decide),
    verify_auth_headers.2.2.2.2.2.1 _ "x" "e" "1.0.0" 403 (Or.inr rfl) (by decide),
    verify_auth_headers.2.2.2.2.2.2 _ 401⟩

/-- C7 counterexample to the claim as stated: the claim keys the header on
the request URL containing the GitHub Packages marker, but the metadata
request keys it on the REGISTRY string; for the (legally named) package
`pkg.github.com` fetched from the public npm registry, the request URL
contains the marker yet the request carries `token <token>`, not
`Bearer <token>`. -/
theorem verify_auth_headers_claim_counterexample :
    includesStr (metadataRequest "pkg.github.com" "https://registry.npmjs.org/"
      (some "t")).1 ghMarker = true ∧
    (metadataRequest "pkg.github.com" "https://registry.npmjs.org/" (some "t")).2 =
      some "token t" ∧
    ("token t" : String) ≠ "Bearer t" := by
  refine ⟨by decide, rfl, by decide⟩
